import Mathlib

/-!
Verification of the content-caching layer and streamed-reply protocol of the
Portuguese learning app (src/services/geminiService.ts, src/App.tsx,
src/components/AiChat.tsx).

The embedding models:
* the localStorage-backed caches (`loadCache`, `saveCache`, JS `Map` get/set)
  as association lists keyed by strings;
* the content-fetch operations `getConjugations`, `getExamples`,
  `getVocabularyForCategory`, `getFunctionalScene` with their cache-bypass
  guards, cache-key derivations and error classification (`handleApiError`);
* the async interleaving of concurrent `getConjugations` calls as a small
  step machine on tasks (prologue up to the awaited generation call, then
  the resumption that writes the cache);
* the chat stream generator `getChatResponseStream` (the chunking regex
  `/.{1,10}/g` and the event order) together with the consumer's
  reconstruction of the reply in AiChat.tsx.

Generated content values are treated as an opaque type parameter `V`:
the claims under study do not depend on the structure of the generated data.
-/

namespace PortugueseApp

/-! ## Definitions -/

/-! ### Association-list model of a JS `Map` keyed by strings

JS `Map.set` replaces the value of an existing key in place (keeping insertion
order) and appends a fresh key at the end; `Map.get` returns the value or
`undefined`.  All maps in the program are built from the empty map by `set`,
so keys are never duplicated. -/

variable {V W E S : Type}

/-- Model of JS `Map.prototype.get` on an association list. -/
def mapGet (m : List (String × V)) (k : String) : Option V :=
  match m with
  | [] => none
  | (k', v') :: rest => if k' = k then some v' else mapGet rest k

/-- Model of JS `Map.prototype.set` on an association list: replace the first
occurrence of the key in place, or append the pair at the end. -/
def mapSet (m : List (String × V)) (k : String) (v : V) : List (String × V) :=
  match m with
  | [] => [(k, v)]
  | (k', v') :: rest => if k' = k then (k, v) :: rest else (k', v') :: mapSet rest k v

/-- Model of `new Map(pairs)`: later pairs for the same key win, insertion
order otherwise preserved (folding `set` from the empty map). -/
def mapFromPairs (l : List (String × V)) : List (String × V) :=
  l.foldl (fun acc p => mapSet acc p.1 p.2) []

/-- The keys of the association list are pairwise distinct (the invariant of
every list produced by `mapSet` from `[]`, i.e. of every JS `Map`). -/
def NodupKeys (m : List (String × V)) : Prop :=
  (m.map Prod.fst).Nodup

instance (m : List (String × V)) : Decidable (NodupKeys m) :=
  inferInstanceAs (Decidable (m.map Prod.fst).Nodup)

/-! ### The persistent store (localStorage) and the cache load/save functions

`window.localStorage` maps string keys to string blobs.  What matters to the
caching layer is only how a stored blob behaves under `JSON.parse` and
`new Map(...)` in `loadCache`, so a blob is modelled by its parse outcome:
an array of key/value pairs, some other JSON value (parseable but not an
array), or data on which `JSON.parse` (or the `Map` constructor) throws. -/

/-- Parse outcome of one persisted namespace blob. -/
inductive Blob (V : Type) : Type
  /-- parsing succeeds, `Array.isArray` holds and `new Map(parsed)`
  succeeds: the blob denotes this entry list. -/
  | arrayOfPairs (entries : List (String × V)) : Blob V
  /-- parsing succeeds but the value is not an array
  (`Array.isArray(parsed)` is false). -/
  | nonArray : Blob V
  /-- parsing throws (in `JSON.parse` or the `Map` constructor). -/
  | malformed : Blob V
  deriving DecidableEq

/-- The persistent store: an association of localStorage keys to blobs. -/
def Store (V : Type) : Type := List (String × Blob V)

instance [DecidableEq V] : DecidableEq (Store V) :=
  inferInstanceAs (DecidableEq (List (String × Blob V)))

/-- Model of `window.localStorage.removeItem(k)`. -/
def storeRemove (store : Store V) (k : String) : Store V :=
  store.filter (fun p => p.1 ≠ k)

/-- localStorage key of the conjugation cache (`CONJUGATION_CACHE_KEY`). -/
def CONJUGATION_CACHE_KEY : String := "portugueseConjugationCache"
/-- localStorage key of the example cache (`EXAMPLE_CACHE_KEY`). -/
def EXAMPLE_CACHE_KEY : String := "portugueseExampleCache"
/-- localStorage key of the vocabulary cache (`VOCABULARY_CACHE_KEY`). -/
def VOCABULARY_CACHE_KEY : String := "portugueseVocabularyCache"
/-- localStorage key of the functional-scene cache (`FUNCTIONAL_SCENE_CACHE_KEY`). -/
def FUNCTIONAL_SCENE_CACHE_KEY : String := "portugueseFunctionalSceneCache"

/-- Model of `loadCache` (geminiService.ts lines 18-32): read the blob under
`key`; on a parseable array build `new Map(parsed)`; if nothing is stored or
the parsed value is not an array, fall through to the empty map without
touching the store; if parsing throws, the catch block calls
`localStorage.removeItem(key)` and the empty map is returned.
Returns the loaded in-memory cache together with the store left behind. -/
def loadCache (store : Store V) (key : String) :
    List (String × V) × Store V :=
  match mapGet store key with
  | none => ([], store)
  | some (Blob.arrayOfPairs entries) => (mapFromPairs entries, store)
  | some Blob.nonArray => ([], store)
  | some Blob.malformed => ([], storeRemove store key)

/-- Model of `saveCache` (geminiService.ts lines 36-43): serialize the whole
entry list of the in-memory cache (`Array.from(cache.entries())`) and store it
under `key` (`localStorage.setItem`).  Storage-quota failures, which the
source swallows in a catch block, are outside this model. -/
def saveCache (store : Store V) (key : String) (cache : List (String × V)) :
    Store V :=
  mapSet store key (Blob.arrayOfPairs cache)

/-- The cache write performed by every caching fetch on success
(e.g. geminiService.ts lines 311-312): `cache.set(k, v)` followed by
`saveCache(nsKey, cache)`, which re-serializes the entire namespace. -/
def cachePut (cache : List (String × V)) (store : Store V)
    (nsKey k : String) (v : V) : List (String × V) × Store V :=
  let cache' := mapSet cache k v
  (cache', saveCache store nsKey cache')

/-! ### Error classification (`handleApiError`, geminiService.ts lines 53-69)

`handleApiError` inspects the lower-cased message of the thrown `Error` and
re-throws one of four classified errors.  (Values thrown that are not
`Error` instances skip all the checks and also land in the fallback.) -/

/-- The four classified errors thrown by `handleApiError`. -/
inductive GenError : Type
  /-- message mentions `429` or `quota`: the "API Quota Exceeded" error. -/
  | quotaExceeded : GenError
  /-- message mentions `api key not valid`: the "Invalid API Key" error. -/
  | invalidKey : GenError
  /-- message mentions `timed out`: the "Request Timed Out" error. -/
  | timedOut : GenError
  /-- anything else: the "unexpected error" fallback. -/
  | unclassified : GenError
  deriving DecidableEq

/-- Boolean model of JS `String.prototype.includes`: `containsSub pat s` holds
when `pat` occurs as a contiguous substring of `s`. -/
def containsSub (pat s : String) : Bool :=
  s.data.tails.any (fun t => pat.data.isPrefixOf t)

/-- Model of `message.toLowerCase()`: lower-case every character. -/
def lowerStr (s : String) : String :=
  String.mk (s.data.map Char.toLower)

/-- Model of `handleApiError`: classify the lower-cased error message by the
source's `includes` checks, in the source's order. -/
def handleApiError (msg : String) : GenError :=
  let m := lowerStr msg
  if containsSub "429" m || containsSub "quota" m then GenError.quotaExceeded
  else if containsSub "api key not valid" m then GenError.invalidKey
  else if containsSub "timed out" m then GenError.timedOut
  else GenError.unclassified

/-! ### The caching fetch operations

Each operation is modelled as a pure function of the current in-memory cache,
the store, its request parameters, and the outcome the external generation
call would produce (`gen`).  The result records whether the returned value
came from the cache or from a fresh generation, plus the updated cache and
store state. -/

/-- Where a fetched value came from. -/
inductive FetchResult (V : Type) : Type
  /-- returned directly from the in-memory cache (the early-return branch). -/
  | cached (v : V) : FetchResult V
  /-- produced by a fresh call to the generation service. -/
  | generated (v : V) : FetchResult V
  deriving DecidableEq

/-- Model of `getConjugations` (geminiService.ts lines 295-317): return the
cached value on a hit; otherwise invoke generation — on success `set` the
verb in the cache and persist the whole namespace via `saveCache`, on failure
the catch block forwards the error through `handleApiError` and nothing is
written.  `gen` is the outcome of the `ai.models.generateContent` call. -/
def getConjugations (cache : List (String × V)) (store : Store V)
    (verb : String) (gen : Except String V) :
    Except GenError (FetchResult V) × List (String × V) × Store V :=
  match mapGet cache verb with
  | some v => (Except.ok (FetchResult.cached v), cache, store)
  | none =>
    match gen with
    | Except.ok data =>
      let (cache', store') := cachePut cache store CONJUGATION_CACHE_KEY verb data
      (Except.ok (FetchResult.generated data), cache', store')
    | Except.error msg => (Except.error (handleApiError msg), cache, store)

/-- The example-cache key of `getExamples` (line 320): `` `${verb}-${form}` ``. -/
def exampleCacheKey (verb form : String) : String :=
  verb ++ "-" ++ form

/-- Model of `getExamples` (geminiService.ts lines 319-352).  The cache is
read only when `existingExamples` is absent (`!existingExamples` — note that
a *defined* empty array is truthy in JS, so `some []` also bypasses), and the
fresh result is cached only under the same condition.  `E` is the type of one
example; `gen` the freshly generated list. -/
def getExamples (cache : List (String × List E)) (store : Store (List E))
    (verb form : String) (existingExamples : Option (List E))
    (gen : List E) :
    FetchResult (List E) × List (String × List E) × Store (List E) :=
  let cacheKey := exampleCacheKey verb form
  match existingExamples, mapGet cache cacheKey with
  | none, some v => (FetchResult.cached v, cache, store)
  | ex, _ =>
    if ex.isNone then
      let (cache', store') := cachePut cache store EXAMPLE_CACHE_KEY cacheKey gen
      (FetchResult.generated gen, cache', store')
    else
      (FetchResult.generated gen, cache, store)

/-- Model of `getVocabularyForCategory` (geminiService.ts lines 462-501).
The cache key is the category itself; the cache is read only when both
`existingWords` and `wordsToExclude` are absent, and written only under the
same condition.  `W` is the type of one vocabulary item. -/
def getVocabularyForCategory (cache : List (String × List W))
    (store : Store (List W)) (category : String)
    (existingWords : Option (List W)) (wordsToExclude : Option (List String))
    (gen : List W) :
    FetchResult (List W) × List (String × List W) × Store (List W) :=
  let cacheKey := category
  match existingWords.isNone && wordsToExclude.isNone, mapGet cache cacheKey with
  | true, some v => (FetchResult.cached v, cache, store)
  | bypass, _ =>
    if bypass then
      let (cache', store') := cachePut cache store VOCABULARY_CACHE_KEY cacheKey gen
      (FetchResult.generated gen, cache', store')
    else
      (FetchResult.generated gen, cache, store)

/-- The scene-cache key of `getFunctionalScene` (line 528):
`` `${domain}-${subtopic}-${func}` ``. -/
def sceneCacheKey (domain subtopic func : String) : String :=
  domain ++ "-" ++ subtopic ++ "-" ++ func

/-- Model of `getFunctionalScene` (geminiService.ts lines 527-559): read the
cache only when no `existingScene` is supplied, and cache the fresh scene only
in that case.  `S` is the scene type. -/
def getFunctionalScene (cache : List (String × S)) (store : Store S)
    (domain subtopic func : String) (existingScene : Option S)
    (gen : S) :
    FetchResult S × List (String × S) × Store S :=
  let cacheKey := sceneCacheKey domain subtopic func
  match existingScene, mapGet cache cacheKey with
  | none, some v => (FetchResult.cached v, cache, store)
  | sc, _ =>
    if sc.isNone then
      let (cache', store') := cachePut cache store FUNCTIONAL_SCENE_CACHE_KEY cacheKey gen
      (FetchResult.generated gen, cache', store')
    else
      (FetchResult.generated gen, cache, store)

/-! ### Interleaved executions of `getConjugations`

JavaScript is single-threaded but `getConjugations` is `async`: it runs a
synchronous prologue (the cache check, and on a miss the start of the
`generateContent` call), suspends at the `await`, and on resumption writes
the cache, persists it, and returns.  Overlapping calls — as issued by
`prefetchInitialVerbs` and `handleVerbSelect` in src/App.tsx — interleave at
exactly this suspension point.  A call is a task; a schedule picks which task
runs its next step. -/

/-- The execution state of one `getConjugations(k)` call.  `genValue` is the
value the external generation call will return to this particular caller. -/
inductive ConjTask (V : Type) : Type
  /-- the call has not yet run its synchronous prologue. -/
  | ready (genValue : V) : ConjTask V
  /-- the prologue missed the cache and issued the generation call;
  the task is suspended at the `await`. -/
  | awaitingGen (genValue : V) : ConjTask V
  /-- the call returned `value`. -/
  | finished (value : V) : ConjTask V
  deriving DecidableEq

/-- The shared world: the module-level conjugation cache, the persistent
store, and a counter of generation calls issued so far. -/
structure ConjWorld (V : Type) : Type where
  cache : List (String × V)
  store : Store V
  genCalls : Nat
  deriving DecidableEq

/-- One step of one `getConjugations(k)` task, mirroring the two halves of
geminiService.ts lines 295-317: the prologue returns the cached value on a
hit and otherwise issues the generation call (incrementing the counter) and
suspends; the resumption writes the cache, persists the namespace, and
finishes with the generated value.  A finished task does nothing. -/
def stepConjTask (k : String) (w : ConjWorld V) (t : ConjTask V) :
    ConjWorld V × ConjTask V :=
  match t with
  | ConjTask.ready g =>
    match mapGet w.cache k with
    | some v => (w, ConjTask.finished v)
    | none => ({ w with genCalls := w.genCalls + 1 }, ConjTask.awaitingGen g)
  | ConjTask.awaitingGen g =>
    let (cache', store') := cachePut w.cache w.store CONJUGATION_CACHE_KEY k g
    ({ w with cache := cache', store := store' }, ConjTask.finished g)
  | ConjTask.finished v => (w, ConjTask.finished v)

/-- Run a schedule (a list of task indices) over a pool of tasks that all
fetch the same key `k`.  Indices out of range are skipped. -/
def runConjSchedule (k : String) (w : ConjWorld V) (ts : List (ConjTask V)) :
    List Nat → ConjWorld V × List (ConjTask V)
  | [] => (w, ts)
  | i :: rest =>
    match ts.get? i with
    | none => runConjSchedule k w ts rest
    | some t =>
      let (w', t') := stepConjTask k w t
      runConjSchedule k w' (ts.set i t') rest

/-- Number of tasks currently suspended at an outstanding generation call. -/
def outstandingGens (ts : List (ConjTask V)) : Nat :=
  (ts.filter (fun t => match t with
    | ConjTask.awaitingGen _ => true
    | _ => false)).length

/-! ### The chat response stream (`getChatResponseStream`) and its consumer

geminiService.ts lines 609-669: after the full JSON reply is parsed, the
generator yields one `correction` event, then the Portuguese response split
by `portugueseResponse.match(/.{1,10}/g)` (falling back to the whole string
when the regex finds no match) as `portuguese_chunk` events, then one
`english_translation` event.  The consumer (`handleSendMessage`,
src/components/AiChat.tsx lines 86-119) creates the AI message on the first
chunk and appends each later chunk in arrival order. -/

/-- A grammar-correction payload (`{portuguese, english}`). -/
structure Correction : Type where
  portuguese : String
  english : String
  deriving DecidableEq

/-- The events yielded by `getChatResponseStream` (the `ChatStreamEvent`
union type). -/
inductive ChatStreamEvent : Type
  | correction (c : Option Correction) : ChatStreamEvent
  | portuguese_chunk (chunk : String) : ChatStreamEvent
  | english_translation (english : String) : ChatStreamEvent
  deriving DecidableEq

/-- Whether a character is matched by the regex metacharacter `.` without the
`s` flag: everything except the JS line terminators `\n`, `\r`, U+2028 and
U+2029. -/
def regexDot (c : Char) : Bool :=
  !(c == '\n' || c == '\r' || c == Char.ofNat 0x2028 || c == Char.ofNat 0x2029)

/-- Scanner for the global regex match `/.{1,10}/g`: `pending` is the segment
built so far (reversed), `room` how many more characters the greedy `{1,10}`
quantifier may still take into the current segment.  Line terminators never
enter a segment and close the current one; a full segment (room `0`) is
emitted and a new one started. -/
def chunkScan : List Char → List Char → Nat → List (List Char)
  | pending, [], _ => if pending.isEmpty then [] else [pending.reverse]
  | pending, c :: rest, room =>
    if regexDot c then
      if room = 0 then
        pending.reverse :: chunkScan [c] rest 9
      else
        chunkScan (c :: pending) rest (room - 1)
    else
      if pending.isEmpty then
        chunkScan [] rest 10
      else
        pending.reverse :: chunkScan [] rest 10

/-- The list of matches of `portugueseResponse.match(/.{1,10}/g)`
(empty list standing for a `null` result). -/
def chunkMatches (l : List Char) : List (List Char) :=
  chunkScan [] l 10

/-- The chunk list of `getChatResponseStream`:
`portugueseResponse.match(/.{1,10}/g) || [portugueseResponse]`. -/
def chunkText (s : String) : List String :=
  let ms := chunkMatches s.data
  if ms.isEmpty then [s] else ms.map (fun l => String.mk l)

/-- The event sequence produced by one successful `getChatResponseStream`
invocation, from the parsed reply fields: the `correction` event (the
`correction || null` coalescing is the identity on an option), the chunk
events in order, then the `english_translation` event. -/
def getChatResponseStream (correction : Option Correction)
    (portugueseResponse englishTranslation : String) : List ChatStreamEvent :=
  ChatStreamEvent.correction correction ::
    ((chunkText portugueseResponse).map ChatStreamEvent.portuguese_chunk ++
      [ChatStreamEvent.english_translation englishTranslation])

/-- One consumer step of `handleSendMessage` in AiChat.tsx applied to the
accumulated Portuguese text of the AI message: a `portuguese_chunk` event
appends its payload (the first chunk creates the message, i.e. appends to the
empty initial text); other events leave the Portuguese text alone. -/
def consumerStep (acc : String) (e : ChatStreamEvent) : String :=
  match e with
  | ChatStreamEvent.portuguese_chunk ch => acc ++ ch
  | _ => acc

/-- The Portuguese text the consumer in AiChat.tsx ends up displaying after
processing the whole stream in emission order. -/
def consumerPortuguese (events : List ChatStreamEvent) : String :=
  events.foldl consumerStep ""

/-! ## Theorems -/

/-! ### Map lemmas -/

theorem mapGet_mapSet_self (m : List (String × V)) (k : String) (v : V) :
    mapGet (mapSet m k v) k = some v := by
  induction m with
  | nil => simp [mapSet, mapGet]
  | cons p rest ih =>
    obtain ⟨k', v'⟩ := p
    by_cases h : k' = k
    · simp [mapSet, h, mapGet]
    · simp [mapSet, h, mapGet, ih]

theorem mapGet_mapSet_ne (m : List (String × V)) (k k' : String) (v : V)
    (h : k ≠ k') : mapGet (mapSet m k v) k' = mapGet m k' := by
  induction m with
  | nil => simp [mapSet, mapGet, h]
  | cons p rest ih =>
    obtain ⟨k₀, v₀⟩ := p
    by_cases h₀ : k₀ = k
    · subst h₀
      simp [mapSet, mapGet, h]
    · simp [mapSet, h₀, mapGet, ih]

theorem mapSet_of_get_none (m : List (String × V)) (k : String) (v : V)
    (h : mapGet m k = none) : mapSet m k v = m ++ [(k, v)] := by
  induction m with
  | nil => simp [mapSet]
  | cons p rest ih =>
    obtain ⟨k', v'⟩ := p
    by_cases hk : k' = k
    · simp [mapGet, hk] at h
    · simp [mapGet, hk] at h
      simp [mapSet, hk, ih h]

theorem mapGet_append_left (m m' : List (String × V)) (k : String)
    (h : mapGet m k = none) : mapGet (m ++ m') k = mapGet m' k := by
  induction m with
  | nil => simp
  | cons p rest ih =>
    obtain ⟨k', v'⟩ := p
    by_cases hk : k' = k
    · simp [mapGet, hk] at h
    · simp [mapGet, hk] at h ⊢
      exact ih h

theorem mapGet_eq_none_of_not_mem (m : List (String × V)) (k : String)
    (h : k ∉ m.map Prod.fst) : mapGet m k = none := by
  induction m with
  | nil => rfl
  | cons p rest ih =>
    obtain ⟨k', v'⟩ := p
    simp only [List.map_cons, List.mem_cons, not_or] at h
    have hne : k' ≠ k := fun hk => h.1 hk.symm
    simp [mapGet, hne, ih h.2]

/-- Folding `mapSet` over a list of pairs with pairwise-distinct keys, starting
from a map containing none of those keys, appends the pairs unchanged. -/
theorem foldl_mapSet_append (l acc : List (String × V))
    (hd : ∀ p ∈ l, mapGet acc p.1 = none) (hn : NodupKeys l) :
    l.foldl (fun acc p => mapSet acc p.1 p.2) acc = acc ++ l := by
  induction l generalizing acc with
  | nil => simp
  | cons p rest ih =>
    obtain ⟨k, v⟩ := p
    have hacc : mapGet acc k = none := hd (k, v) (List.mem_cons_self _ _)
    have hstep : mapSet acc k v = acc ++ [(k, v)] := mapSet_of_get_none _ _ _ hacc
    have hn₂ : k ∉ rest.map Prod.fst ∧ NodupKeys rest := by
      simp only [NodupKeys, List.map_cons, List.nodup_cons] at hn
      exact hn
    have hn' : NodupKeys rest := hn₂.2
    have hknotin : k ∉ rest.map Prod.fst := hn₂.1
    have hd' : ∀ q ∈ rest, mapGet (acc ++ [(k, v)]) q.1 = none := by
      intro q hq
      have hqacc : mapGet acc q.1 = none := hd q (List.mem_cons_of_mem _ hq)
      have hqk : k ≠ q.1 := by
        intro hkq
        exact hknotin (hkq ▸ List.mem_map_of_mem Prod.fst hq)
      rw [mapGet_append_left _ _ _ hqacc]
      simp [mapGet, hqk]
    calc (rest.foldl (fun acc p => mapSet acc p.1 p.2) (mapSet acc k v))
        = (rest.foldl (fun acc p => mapSet acc p.1 p.2) (acc ++ [(k, v)])) := by rw [hstep]
      _ = (acc ++ [(k, v)]) ++ rest := ih _ hd' hn'
      _ = acc ++ (k, v) :: rest := by simp

/-- Reconstructing a JS `Map` from its own entry list gives back the same
entries (`new Map(Array.from(m.entries()))` is the identity). -/
theorem mapFromPairs_eq_self (m : List (String × V)) (hn : NodupKeys m) :
    mapFromPairs m = m := by
  have := foldl_mapSet_append m [] (fun p _ => rfl) hn
  simpa [mapFromPairs] using this

theorem mapGet_storeRemove (store : Store V) (k : String) :
    mapGet (storeRemove store k) k = none := by
  induction store with
  | nil => rfl
  | cons p rest ih =>
    obtain ⟨k', b⟩ := p
    by_cases h : k' = k
    · simpa [storeRemove, h] using ih
    · simpa [storeRemove, h, mapGet] using ih

/-! ### Separator-joining lemmas (for the cache-key derivations) -/

/-- Splitting a list at a separator element is unambiguous when neither left
part contains the separator. -/
theorem append_sep_inj {α : Type} (c : α) (l₁ : List α) :
    ∀ l₂ r₁ r₂ : List α, c ∉ l₁ → c ∉ l₂ →
      l₁ ++ c :: r₁ = l₂ ++ c :: r₂ → l₁ = l₂ ∧ r₁ = r₂ := by
  induction l₁ with
  | nil =>
    intro l₂ r₁ r₂ h₁ h₂ h
    cases l₂ with
    | nil => simpa using h
    | cons b t =>
      simp only [List.nil_append, List.cons_append, List.cons.injEq] at h
      refine absurd ?_ h₂
      rw [h.1]
      exact List.mem_cons_self b t
  | cons a s ih =>
    intro l₂ r₁ r₂ h₁ h₂ h
    cases l₂ with
    | nil =>
      simp only [List.nil_append, List.cons_append, List.cons.injEq] at h
      refine absurd ?_ h₁
      rw [← h.1]
      exact List.mem_cons_self a s
    | cons b t =>
      simp only [List.cons_append, List.cons.injEq] at h
      have hs : c ∉ s := fun hc => h₁ (List.mem_cons_of_mem _ hc)
      have ht : c ∉ t := fun hc => h₂ (List.mem_cons_of_mem _ hc)
      obtain ⟨hab, hrest⟩ := h
      obtain ⟨hst, hr⟩ := ih t r₁ r₂ hs ht hrest
      exact ⟨by rw [hab, hst], hr⟩

theorem exampleCacheKey_data (verb form : String) :
    (exampleCacheKey verb form).data = verb.data ++ '-' :: form.data := by
  rw [exampleCacheKey, String.data_append, String.data_append]
  rw [show ("-" : String).data = ['-'] from rfl]
  simp

theorem sceneCacheKey_data (domain subtopic func : String) :
    (sceneCacheKey domain subtopic func).data
      = domain.data ++ '-' :: (subtopic.data ++ '-' :: func.data) := by
  rw [sceneCacheKey, String.data_append, String.data_append, String.data_append,
    String.data_append]
  rw [show ("-" : String).data = ['-'] from rfl]
  simp

/-! ### Chunking and consumer lemmas (for the chat stream) -/

/-- The concatenation of the regex matches is the input with every character
rejected by `.` (the line terminators) dropped. -/
theorem chunkScan_flatten (l : List Char) :
    ∀ (pending : List Char) (room : Nat),
      (chunkScan pending l room).flatten = pending.reverse ++ l.filter regexDot := by
  induction l with
  | nil =>
    intro pending room
    by_cases h : pending.isEmpty
    · simp [chunkScan, List.isEmpty_iff.mp h]
    · simp [chunkScan, h]
  | cons c rest ih =>
    intro pending room
    by_cases hc : regexDot c
    · by_cases hr : room = 0
      · simp [chunkScan, hc, hr, ih, List.filter_cons]
      · simp [chunkScan, hc, hr, ih, List.filter_cons]
    · by_cases hp : pending.isEmpty
      · simp [chunkScan, hc, List.isEmpty_iff.mp hp, ih, List.filter_cons]
      · simp [chunkScan, hc, hp, ih, List.filter_cons]

theorem chunkText_ne_nil (s : String) : chunkText s ≠ [] := by
  unfold chunkText
  by_cases h : (chunkMatches s.data).isEmpty
  · simp [h]
  · simp only [h, Bool.false_eq_true, if_false, ne_eq, List.map_eq_nil_iff]
    intro hh
    exact h (by simp [hh])

/-- Character-level content of the chunk list: the whole input when the regex
found no match (the `|| [portugueseResponse]` fallback), otherwise the input
with line terminators dropped. -/
theorem chunkText_data_flatten (s : String) :
    ((chunkText s).map String.data).flatten
      = if (chunkMatches s.data).isEmpty then s.data
        else s.data.filter regexDot := by
  unfold chunkText
  by_cases h : (chunkMatches s.data).isEmpty
  · simp [h]
  · simp [h, List.map_map]
    have hid : (String.data ∘ fun l => String.mk l) = id := funext fun l => rfl
    rw [hid, List.map_id]
    have := chunkScan_flatten s.data [] 10
    simpa [chunkMatches] using this

theorem foldl_consumerStep_chunks (cs : List String) :
    ∀ acc : String,
      (cs.map ChatStreamEvent.portuguese_chunk).foldl consumerStep acc
        = cs.foldl (fun a b => a ++ b) acc := by
  induction cs with
  | nil => intro acc; rfl
  | cons c rest ih => intro acc; simp [consumerStep, ih]

theorem foldl_append_data (cs : List String) :
    ∀ acc : String,
      (cs.foldl (fun a b => a ++ b) acc).data
        = acc.data ++ (cs.map String.data).flatten := by
  induction cs with
  | nil => intro acc; simp
  | cons c rest ih => intro acc; simp [ih, String.data_append]

/-- The Portuguese text the consumer accumulates from one stream is exactly
the concatenation of the chunk payloads. -/
theorem consumerPortuguese_stream_data (c : Option Correction)
    (resp transl : String) :
    (consumerPortuguese (getChatResponseStream c resp transl)).data
      = ((chunkText resp).map String.data).flatten := by
  unfold consumerPortuguese getChatResponseStream
  rw [List.foldl_cons]
  rw [show consumerStep "" (ChatStreamEvent.correction c) = "" from rfl]
  rw [List.foldl_append, foldl_consumerStep_chunks]
  rw [show ∀ a : String,
    List.foldl consumerStep a [ChatStreamEvent.english_translation transl] = a
    from fun a => rfl]
  rw [foldl_append_data]
  rfl

/-! ### Claim theorems -/

/-- Claim C1, counterexample.  Two `getConjugations("falar")` calls whose
generation results are `1` and `2`, interleaved so that the second call runs
its prologue while the first is still awaiting generation (schedule
`[0, 1, 0, 1]`, exactly what `prefetchInitialVerbs` can produce), issue TWO
generation calls, have two outstanding generations at once after the prefix
`[0, 1]`, and return different values to the two callers — refuting the
claim that the generation call is issued exactly once, that both callers
receive the same value, and that at most one outstanding generation exists
per key. -/
theorem c1_coalescing_counterexample :
    (runConjSchedule "falar" ⟨[], [], 0⟩
        [ConjTask.ready (1 : Nat), ConjTask.ready 2] [0, 1, 0, 1]).1.genCalls = 2
    ∧ (runConjSchedule "falar" ⟨[], [], 0⟩
        [ConjTask.ready (1 : Nat), ConjTask.ready 2] [0, 1, 0, 1]).2
        = [ConjTask.finished 1, ConjTask.finished 2]
    ∧ outstandingGens (runConjSchedule "falar" ⟨[], [], 0⟩
        [ConjTask.ready (1 : Nat), ConjTask.ready 2] [0, 1]).2 = 2
    ∧ ¬((runConjSchedule "falar" ⟨[], [], 0⟩
          [ConjTask.ready (1 : Nat), ConjTask.ready 2] [0, 1, 0, 1]).1.genCalls = 1
        ∧ (runConjSchedule "falar" ⟨[], [], 0⟩
            [ConjTask.ready (1 : Nat), ConjTask.ready 2] [0, 1, 0, 1]).2
            = [ConjTask.finished 1, ConjTask.finished 1]) := by
  decide

/-- Claim C1, amended.  The code has no in-flight registry, so deduplication
happens only through the cache: when the second `getConjugations(k)` call is
invoked after the first has resolved (schedule `[0, 0, 1]`), the generation
call is issued exactly once and both callers receive the same resolved value
(the first caller's generation result); but a second call invoked while the
first is still unresolved issues a duplicate generation call. -/
theorem c1_sequential_dedup (k : String) (g₁ g₂ : V) :
    (runConjSchedule k ⟨[], [], 0⟩
        [ConjTask.ready g₁, ConjTask.ready g₂] [0, 0, 1]).1.genCalls = 1
    ∧ (runConjSchedule k ⟨[], [], 0⟩
        [ConjTask.ready g₁, ConjTask.ready g₂] [0, 0, 1]).2
        = [ConjTask.finished g₁, ConjTask.finished g₁] := by
  simp [runConjSchedule, stepConjTask, mapGet, cachePut, saveCache, mapSet]

/-- Claim C2: a content fetch carrying a non-empty exclusion requirement
(existing examples for `getExamples`, existing words or words-to-exclude for
`getVocabularyForCategory`, an existing scene for `getFunctionalScene`)
neither reads the content cache nor writes its result into the cache or the
persisted namespace: the cache and store are unchanged and the generation
result is returned directly. -/
theorem c2_exclusion_bypass
    (cacheE : List (String × List E)) (storeE : Store (List E))
    (verb form : String) (es genE : List E) (hes : es ≠ [])
    (cacheW : List (String × List W)) (storeW : Store (List W))
    (category : String) (ws genW : List W) (hws : ws ≠ [])
    (xs : List String) (hxs : xs ≠ [])
    (cacheS : List (String × S)) (storeS : Store S)
    (domain subtopic func : String) (sc genS : S) :
    getExamples cacheE storeE verb form (some es) genE
      = (FetchResult.generated genE, cacheE, storeE)
    ∧ getVocabularyForCategory cacheW storeW category (some ws) none genW
      = (FetchResult.generated genW, cacheW, storeW)
    ∧ getVocabularyForCategory cacheW storeW category none (some xs) genW
      = (FetchResult.generated genW, cacheW, storeW)
    ∧ getFunctionalScene cacheS storeS domain subtopic func (some sc) genS
      = (FetchResult.generated genS, cacheS, storeS) := by
  refine ⟨?_, ?_, ?_, ?_⟩
  · simp [getExamples]
  · simp [getVocabularyForCategory]
  · simp [getVocabularyForCategory]
  · simp [getFunctionalScene]

theorem c2_exclusion_bypass_witness :
    ([(0 : Nat)] ≠ []) ∧
    getExamples ([] : List (String × List Nat)) [] "falar" "falo" (some [0]) [1]
      = (FetchResult.generated [1], [], []) :=
  ⟨by decide,
    (c2_exclusion_bypass ([] : List (String × List Nat)) [] "falar" "falo" [0] [1]
      (by decide)
      ([] : List (String × List Nat)) [] "Food" [0] [2] (by decide)
      ["x"] (by decide)
      ([] : List (String × Nat)) [] "a" "b" "c" 0 3).1⟩

/-- Claim C3: every successful `getChatResponseStream` run emits exactly one
correction event first, then at least one `portuguese_chunk` event, then
exactly one `english_translation` event, and nothing after it: the stream is
literally the correction consed onto the chunk events followed by the single
translation event. -/
theorem c3_stream_ordering (c : Option Correction) (resp transl : String) :
    ∃ chunks : List String, chunks ≠ [] ∧
      getChatResponseStream c resp transl
        = ChatStreamEvent.correction c ::
            (chunks.map ChatStreamEvent.portuguese_chunk
              ++ [ChatStreamEvent.english_translation transl]) :=
  ⟨chunkText resp, chunkText_ne_nil resp, rfl⟩

/-- Claim C4, counterexample.  The key derivations join components with `-`
without escaping, so two semantically distinct requests can collide:
`getExamples("a-b", "c")` and `getExamples("a", "b-c")` share the example
cache key `a-b-c`, and `getFunctionalScene("a-b", "c", "d")` collides with
`getFunctionalScene("a", "b-c", "d")` — refuting
`key(a) == key(b) ⇒ semantically-equivalent(a, b)`. -/
theorem c4_key_collision_counterexample :
    exampleCacheKey "a-b" "c" = exampleCacheKey "a" "b-c"
    ∧ ("a-b", "c") ≠ ("a", "b-c")
    ∧ sceneCacheKey "a-b" "c" "d" = sceneCacheKey "a" "b-c" "d"
    ∧ ("a-b", "c", "d") ≠ ("a", "b-c", "d") := by
  decide

/-- Claim C4, amended.  The key derivations are injective on the requests the
app actually issues, namely those whose leading components contain no hyphen:
if the verbs are hyphen-free, equal example-cache keys imply equal
(verb, form) pairs, and if the domains and subtopics are hyphen-free, equal
scene-cache keys imply equal (domain, subtopic, function) triples; with
hyphens in those components two distinct requests can share a key. -/
theorem c4_key_injective_on_hyphen_free
    (v₁ f₁ v₂ f₂ : String) (hv₁ : '-' ∉ v₁.data) (hv₂ : '-' ∉ v₂.data)
    (d₁ s₁ g₁ d₂ s₂ g₂ : String)
    (hd₁ : '-' ∉ d₁.data) (hd₂ : '-' ∉ d₂.data)
    (hs₁ : '-' ∉ s₁.data) (hs₂ : '-' ∉ s₂.data) :
    (exampleCacheKey v₁ f₁ = exampleCacheKey v₂ f₂ → v₁ = v₂ ∧ f₁ = f₂)
    ∧ (sceneCacheKey d₁ s₁ g₁ = sceneCacheKey d₂ s₂ g₂ →
        d₁ = d₂ ∧ s₁ = s₂ ∧ g₁ = g₂) := by
  constructor
  · intro h
    have hdata := congrArg String.data h
    rw [exampleCacheKey_data, exampleCacheKey_data] at hdata
    obtain ⟨h₁, h₂⟩ := append_sep_inj '-' v₁.data v₂.data f₁.data f₂.data hv₁ hv₂ hdata
    exact ⟨String.ext h₁, String.ext h₂⟩
  · intro h
    have hdata := congrArg String.data h
    rw [sceneCacheKey_data, sceneCacheKey_data] at hdata
    obtain ⟨h₁, h₂⟩ := append_sep_inj '-' d₁.data d₂.data _ _ hd₁ hd₂ hdata
    obtain ⟨h₃, h₄⟩ := append_sep_inj '-' s₁.data s₂.data g₁.data g₂.data hs₁ hs₂ h₂
    exact ⟨String.ext h₁, String.ext h₃, String.ext h₄⟩

theorem c4_key_injective_witness :
    ("falar" : String) = "falar" ∧ ("falo" : String) = "falo" :=
  (c4_key_injective_on_hyphen_free "falar" "falo" "falar" "falo"
    (by decide) (by decide) "a" "b" "c" "a" "b" "c"
    (by decide) (by decide) (by decide) (by decide)).1 rfl

/-- Claim C5, counterexample.  The chunking regex `/.{1,10}/g` never matches
a newline, so for the reply `"a\nb"` the emitted chunks are `"a"` and `"b"`
and the consumer reconstructs `"ab"`, dropping the newline — refuting the
claim that concatenating the chunk payloads yields exactly the complete
Portuguese response text. -/
theorem c5_chunk_concat_counterexample :
    consumerPortuguese (getChatResponseStream none "a\nb" "ok") = "ab"
    ∧ "ab" ≠ "a\nb" := by
  decide

/-- Claim C5, amended.  The consumer's concatenation of the chunk payloads in
emission order reconstructs, as a total characterization covering every
response: when the chunking regex finds no match (the response is empty or
consists entirely of line terminators), the `|| [portugueseResponse]`
fallback emits the full response verbatim; otherwise the reconstruction is
the response with its line-terminator characters removed.  In particular the
complete text is reconstructed exactly whenever the response contains no
line terminator, while a mixed response such as `"a\nb"` loses its
newline. -/
theorem c5_chunk_reconstruction (c : Option Correction) (resp transl : String) :
    (consumerPortuguese (getChatResponseStream c resp transl)
      = if chunkMatches resp.data = [] then resp
        else String.mk (resp.data.filter regexDot))
    ∧ ((∀ ch ∈ resp.data, regexDot ch = true) →
      consumerPortuguese (getChatResponseStream c resp transl) = resp) := by
  have hmain : consumerPortuguese (getChatResponseStream c resp transl)
      = if chunkMatches resp.data = [] then resp
        else String.mk (resp.data.filter regexDot) := by
    apply String.ext
    rw [consumerPortuguese_stream_data, chunkText_data_flatten]
    by_cases h : chunkMatches resp.data = []
    · simp [h]
    · simp [h, List.isEmpty_iff]
  refine ⟨hmain, ?_⟩
  intro hall
  rw [hmain]
  by_cases h : chunkMatches resp.data = []
  · simp [h]
  · simp only [h, if_false]
    apply String.ext
    simpa using List.filter_eq_self.mpr hall

theorem c5_chunk_reconstruction_witness :
    (consumerPortuguese (getChatResponseStream none "\n" "ok")
      = if chunkMatches ("\n" : String).data = [] then "\n"
        else String.mk (("\n" : String).data.filter regexDot))
    ∧ (consumerPortuguese (getChatResponseStream none "a\nb" "ok")
      = if chunkMatches ("a\nb" : String).data = [] then "a\nb"
        else String.mk (("a\nb" : String).data.filter regexDot))
    ∧ ((∀ ch ∈ ("tudo bem" : String).data, regexDot ch = true) ∧
      consumerPortuguese (getChatResponseStream none "tudo bem" "ok") = "tudo bem") :=
  ⟨(c5_chunk_reconstruction none "\n" "ok").1,
   (c5_chunk_reconstruction none "a\nb" "ok").1,
   by decide, (c5_chunk_reconstruction none "tudo bem" "ok").2 (by decide)⟩

/-- Claim C6, counterexample.  A persisted blob that parses but is not an
array (`Array.isArray(parsed)` false) falls through `loadCache` without
entering the catch block: the load yields the empty mapping, but the corrupt
record is NOT removed from the store — refuting the claim that for every
malformed blob the corrupt record is removed so it cannot affect future
loads. -/
theorem c6_corruption_counterexample :
    (loadCache ([("portugueseVocabularyCache", Blob.nonArray)] : Store Nat)
        "portugueseVocabularyCache").1 = []
    ∧ (loadCache ([("portugueseVocabularyCache", Blob.nonArray)] : Store Nat)
        "portugueseVocabularyCache").2
        = [("portugueseVocabularyCache", Blob.nonArray)]
    ∧ mapGet ((loadCache ([("portugueseVocabularyCache", Blob.nonArray)] : Store Nat)
        "portugueseVocabularyCache").2) "portugueseVocabularyCache"
        = some Blob.nonArray := by
  decide

/-- Claim C6, amended.  Loading a malformed namespace blob never throws and
always yields the empty mapping, and a subsequent put succeeds normally; but
the corrupt record is removed from the persistent store only when parsing
throws (the catch branch) — a parseable blob of the wrong shape is left in
place. -/
theorem c6_corruption_recovery (store : Store V) (key k₀ : String) (v : V) :
    (mapGet store key = some Blob.malformed →
      (loadCache store key).1 = [] ∧ mapGet (loadCache store key).2 key = none)
    ∧ (mapGet store key = some Blob.nonArray →
      (loadCache store key).1 = [] ∧ (loadCache store key).2 = store)
    ∧ mapGet (cachePut (loadCache store key).1 (loadCache store key).2
        key k₀ v).1 k₀ = some v := by
  refine ⟨?_, ?_, ?_⟩
  · intro h
    simp [loadCache, h, mapGet_storeRemove]
  · intro h
    simp [loadCache, h]
  · simp [cachePut, mapGet_mapSet_self]

theorem c6_corruption_recovery_witness :
    ((loadCache ([("k", Blob.malformed)] : Store Nat) "k").1 = []
      ∧ mapGet (loadCache ([("k", Blob.malformed)] : Store Nat) "k").2 "k" = none)
    ∧ ((loadCache ([("k", Blob.nonArray)] : Store Nat) "k").1 = []
      ∧ (loadCache ([("k", Blob.nonArray)] : Store Nat) "k").2 = [("k", Blob.nonArray)]) :=
  ⟨(c6_corruption_recovery ([("k", Blob.malformed)] : Store Nat) "k" "x" 0).1 (by decide),
   (c6_corruption_recovery ([("k", Blob.nonArray)] : Store Nat) "k" "x" 0).2.1 (by decide)⟩

/-- Claim C7: after a cache write of `(k, v)`, looking up `k` returns `v`;
writing `v₁` then `v₂` under `k` makes the lookup return `v₂` (last write
wins); and each write immediately re-serializes the entire namespace, so the
persisted snapshot under the namespace key is exactly the serialization of
the updated cache — it reflects the most recent write for every key. -/
theorem c7_cache_idempotence (cache : List (String × V)) (store : Store V)
    (ns k : String) (v v₁ v₂ : V) :
    mapGet (cachePut cache store ns k v).1 k = some v
    ∧ mapGet (cachePut (cachePut cache store ns k v₁).1
        (cachePut cache store ns k v₁).2 ns k v₂).1 k = some v₂
    ∧ mapGet (cachePut cache store ns k v).2 ns
        = some (Blob.arrayOfPairs (cachePut cache store ns k v).1) := by
  refine ⟨?_, ?_, ?_⟩ <;> simp [cachePut, saveCache, mapGet_mapSet_self]

/-- Claim C8: when the generation call inside `getConjugations` fails on a
cache miss, the error propagates to the caller classified by
`handleApiError`, and neither the in-memory cache nor the persisted store is
modified; consequently a later fetch for the same key misses the cache again
and retries cleanly (a subsequent successful generation returns fresh
content). -/
theorem c8_error_no_cache_write (cache : List (String × V)) (store : Store V)
    (verb msg : String) (h : mapGet cache verb = none) :
    getConjugations cache store verb (Except.error msg)
      = (Except.error (handleApiError msg), cache, store)
    ∧ ∀ v : V, (getConjugations cache store verb (Except.ok v)).1
        = Except.ok (FetchResult.generated v) := by
  constructor
  · simp [getConjugations, h]
  · intro v
    simp [getConjugations, h, cachePut]

theorem c8_error_no_cache_write_witness :
    getConjugations ([] : List (String × Nat)) [] "falar" (Except.error "quota")
      = (Except.error GenError.quotaExceeded, [], []) := by
  have h := (c8_error_no_cache_write ([] : List (String × Nat)) [] "falar" "quota"
    rfl).1
  have hclass : handleApiError "quota" = GenError.quotaExceeded := by decide
  rw [h, hclass]

/-- Claim C9: serializing a cache's entries with `saveCache` and loading them
back with `loadCache` (a process restart) reproduces the same entry set —
indeed literally the same entry list, for any entry list with the
distinct-keys invariant every JS `Map` maintains. -/
theorem c9_persistence_roundtrip (m : List (String × V)) (store : Store V)
    (ns : String) (hn : NodupKeys m) :
    (loadCache (saveCache store ns m) ns).1 = m := by
  simp [loadCache, saveCache, mapGet_mapSet_self, mapFromPairs_eq_self m hn]

theorem c9_persistence_roundtrip_witness :
    NodupKeys [("amar", (1 : Nat)), ("beber", 2)]
    ∧ (loadCache (saveCache ([] : Store Nat) "portugueseConjugationCache"
        [("amar", 1), ("beber", 2)]) "portugueseConjugationCache").1
        = [("amar", 1), ("beber", 2)] :=
  ⟨by decide,
   c9_persistence_roundtrip [("amar", 1), ("beber", 2)] [] "portugueseConjugationCache"
     (by decide)⟩

/-- Claim C10: supplying a *defined but empty* exclusion argument (an empty
array of existing examples to `getExamples`, or an empty array of existing
words or of words-to-exclude to `getVocabularyForCategory`) still bypasses
the cache on both read and write — the JS truthiness tests
`!existingExamples`, `!existingWords && !wordsToExclude` see a defined empty
array as truthy, so the cached value is not returned and the fresh result is
not cached even though no actual exclusion is requested. -/
theorem c10_empty_exclusion_bypass
    (cacheE : List (String × List E)) (storeE : Store (List E))
    (verb form : String) (genE : List E)
    (cacheW : List (String × List W)) (storeW : Store (List W))
    (category : String) (genW : List W) :
    getExamples cacheE storeE verb form (some []) genE
      = (FetchResult.generated genE, cacheE, storeE)
    ∧ getVocabularyForCategory cacheW storeW category (some []) none genW
      = (FetchResult.generated genW, cacheW, storeW)
    ∧ getVocabularyForCategory cacheW storeW category none (some []) genW
      = (FetchResult.generated genW, cacheW, storeW) := by
  refine ⟨?_, ?_, ?_⟩
  · simp [getExamples]
  · simp [getVocabularyForCategory]
  · simp [getVocabularyForCategory]

end PortugueseApp
